import Mathlib

/-!
Verification of the graph-relationship and denormalized-counter model of the
Social-Media-API repository (FastAPI + neomodel over a Neo4j graph).

Edges adjacent to a node are embedded as lists of peer uids; neomodel's
connect issues a MERGE (at most one edge per (type, from, to) triple), so
connect is modelled as insert-if-absent and disconnect as removal.  Each CRUD
operation is translated as a total state transformer: a Python code path that
raises performs no mutation before the raise in the source, so it is modelled
as returning the state unchanged (the raised error kind is modelled separately
where a claim refers to it).
-/

/-- Insert-if-absent, the semantics of a neomodel connect (Cypher MERGE). -/
def addEdge (l : List String) (u : String) : List String :=
  if u ∈ l then l else u :: l

/-- Removal of every edge to a given peer, the semantics of disconnect. -/
def removeEdge (l : List String) (u : String) : List String :=
  l.filter (fun v => v ≠ u)

theorem mem_addEdge {l : List String} {u v : String} (h : v ∈ addEdge l u) :
    v = u ∨ v ∈ l := by
  unfold addEdge at h
  by_cases hm : u ∈ l
  · rw [if_pos hm] at h
    exact Or.inr h
  · rw [if_neg hm] at h
    exact List.mem_cons.mp h

theorem self_mem_addEdge (l : List String) (u : String) : u ∈ addEdge l u := by
  unfold addEdge
  by_cases hm : u ∈ l
  · rwa [if_pos hm]
  · rw [if_neg hm]
    exact List.mem_cons_self u l

theorem mem_addEdge_of_mem {l : List String} {v : String} (u : String)
    (h : v ∈ l) : v ∈ addEdge l u := by
  unfold addEdge
  by_cases hm : u ∈ l
  · rwa [if_pos hm]
  · rw [if_neg hm]
    exact List.mem_cons_of_mem u h

theorem mem_removeEdge {l : List String} {u v : String} :
    v ∈ removeEdge l u ↔ v ∈ l ∧ v ≠ u := by
  unfold removeEdge
  simp [List.mem_filter]

/-- State of one Group node together with its adjacent edge sets:
owner (OWNS), admins (ADMIN_OF), moderators (MODERATOR_OF), members
(MEMBER_OF), pending (REQUESTED_TO_JOIN) and posts (POSTED_IN), plus the two
denormalized counters (app/models/group.py). -/
structure GState where
  requireApproval : Bool
  owner : List String
  admins : List String
  moderators : List String
  members : List String
  pending : List String
  posts : List String
  membersCount : Nat
  postsCount : Nat
deriving DecidableEq, Repr

/-- Group.update_stats (group.py:63-67): full recount of the member and post
edge sets into the two counters. -/
def GState.update_stats (g : GState) : GState :=
  { g with membersCount := g.members.length, postsCount := g.posts.length }

/-- Group.is_member (group.py:81-83). -/
def GState.is_member (g : GState) (u : String) : Bool :=
  decide (u ∈ g.members)

/-- Group.is_admin (group.py:85-87): admins or the owner. -/
def GState.is_admin (g : GState) (u : String) : Bool :=
  decide (u ∈ g.admins ∨ u ∈ g.owner)

/-- Group.add_member (group.py:69-73): connect MEMBER_OF if absent, then
recount. -/
def GState.add_member (g : GState) (u : String) : GState :=
  if u ∈ g.members then g
  else GState.update_stats { g with members := addEdge g.members u }

/-- Group.remove_member (group.py:75-79): disconnect MEMBER_OF if present,
then recount. -/
def GState.remove_member (g : GState) (u : String) : GState :=
  if u ∈ g.members then
    GState.update_stats { g with members := removeEdge g.members u }
  else g

/-- GroupCRUD.create_group (group_crud.py:12-44): fresh group, owner gets the
OWNS and MEMBER_OF edges, stats recomputed. -/
def GroupCRUD.create_group (ownerUid : String) (reqApproval : Bool) : GState :=
  GState.update_stats
    { requireApproval := reqApproval
      owner := [ownerUid]
      admins := []
      moderators := []
      members := [ownerUid]
      pending := []
      posts := []
      membersCount := 0
      postsCount := 0 }

/-- GroupCRUD.join_group (group_crud.py:82-94): member means no-op; with
require_approval a REQUESTED_TO_JOIN edge is connected instead of MEMBER_OF;
otherwise immediate add_member. -/
def GroupCRUD.join_group (u : String) (g : GState) : GState :=
  if g.is_member u then g
  else if g.requireApproval then { g with pending := addEdge g.pending u }
  else g.add_member u

/-- GroupCRUD.leave_group (group_crud.py:97-114): non-members are no-ops, the
owner raises (no mutation), otherwise remove_member and disconnect the admin
and moderator edges. -/
def GroupCRUD.leave_group (u : String) (g : GState) : GState :=
  if ¬ (g.is_member u = true) then g
  else if u ∈ g.owner then g
  else
    { g.remove_member u with
        admins := removeEdge (g.remove_member u).admins u,
        moderators := removeEdge (g.remove_member u).moderators u }

/-- GroupCRUD.approve_join_request (group_crud.py:117-128): only admins (or
the owner) may approve; disconnect REQUESTED_TO_JOIN, then add_member. -/
def GroupCRUD.approve_join_request (u approver : String) (g : GState) : GState :=
  if ¬ (g.is_admin approver = true) then g
  else if ¬ (u ∈ g.pending) then g
  else GState.add_member { g with pending := removeEdge g.pending u } u

/-- GroupCRUD.reject_join_request (group_crud.py:131-140): only admins; the
REQUESTED_TO_JOIN edge is simply disconnected. -/
def GroupCRUD.reject_join_request (u approver : String) (g : GState) : GState :=
  if ¬ (g.is_admin approver = true) then g
  else if ¬ (u ∈ g.pending) then g
  else { g with pending := removeEdge g.pending u }

/-- Role argument of promote_member; the source compares the raw string, any
other value raises before mutating. -/
inductive GRole where
  | admin
  | moderator
  | other
deriving DecidableEq, Repr

/-- GroupCRUD.promote_member (group_crud.py:143-160): only the owner promotes,
the target must be a member; connect the role edge if absent. -/
def GroupCRUD.promote_member (u : String) (role : GRole) (promoter : String)
    (g : GState) : GState :=
  if ¬ (promoter ∈ g.owner) then g
  else if ¬ (g.is_member u = true) then g
  else
    match role with
    | GRole.admin => { g with admins := addEdge g.admins u }
    | GRole.moderator => { g with moderators := addEdge g.moderators u }
    | GRole.other => g

/-- GroupCRUD.demote_member (group_crud.py:163-173): only the owner demotes;
both role edges are disconnected if present. -/
def GroupCRUD.demote_member (u demoter : String) (g : GState) : GState :=
  if ¬ (demoter ∈ g.owner) then g
  else { g with admins := removeEdge g.admins u,
                moderators := removeEdge g.moderators u }

/-- GroupCRUD.remove_member (group_crud.py:176-192): only admins remove, the
owner cannot be removed; remove_member then disconnect the role edges. -/
def GroupCRUD.remove_member (u remover : String) (g : GState) : GState :=
  if ¬ (g.is_admin remover = true) then g
  else if u ∈ g.owner then g
  else
    { g.remove_member u with
        admins := removeEdge (g.remove_member u).admins u,
        moderators := removeEdge (g.remove_member u).moderators u }

/-- GroupCRUD.update_group (group_crud.py:63-73) applying a payload whose
require_approval field is set: the setattr loop overwrites the stored flag
(GroupUpdate.require_approval, group_schemas.py:35); no edge is touched. -/
def GroupCRUD.update_group_approval (b : Bool) (g : GState) : GState :=
  { g with requireApproval := b }

/-- The three primitive graph statements of GroupCRUD.transfer_ownership
(group_crud.py:317-335), in source order: disconnect OWNS from the current
owner, connect OWNS to the new owner, connect ADMIN_OF to the new owner if
absent.  They are issued as separate statements with no enclosing
transaction. -/
def GroupCRUD.transfer_steps (newOwner currentOwner : String) :
    List (GState → GState) :=
  [fun g => { g with owner := removeEdge g.owner currentOwner },
   fun g => { g with owner := addEdge g.owner newOwner },
   fun g => if newOwner ∈ g.admins then g
            else { g with admins := addEdge g.admins newOwner }]

/-- Sequential execution of a list of graph statements; a run of only the
first n statements models a process interrupted after those statements. -/
def runSteps (fs : List (GState → GState)) (g : GState) : GState :=
  fs.foldl (fun s f => f s) g

/-- GroupCRUD.transfer_ownership (group_crud.py:317-335): guard checks, then
the three statements run to completion. -/
def GroupCRUD.transfer_ownership (newOwner currentOwner : String)
    (g : GState) : GState :=
  if ¬ (currentOwner ∈ g.owner) then g
  else if ¬ (g.is_member newOwner = true) then g
  else runSteps (GroupCRUD.transfer_steps newOwner currentOwner) g

/-- States of a single group reachable through the GroupCRUD operations,
starting from create_group. -/
inductive GReach : GState → Prop where
  | create (o : String) (b : Bool) : GReach (GroupCRUD.create_group o b)
  | join {g : GState} (u : String) :
      GReach g → GReach (GroupCRUD.join_group u g)
  | leave {g : GState} (u : String) :
      GReach g → GReach (GroupCRUD.leave_group u g)
  | approve {g : GState} (u a : String) :
      GReach g → GReach (GroupCRUD.approve_join_request u a g)
  | reject {g : GState} (u a : String) :
      GReach g → GReach (GroupCRUD.reject_join_request u a g)
  | promote {g : GState} (u : String) (r : GRole) (p : String) :
      GReach g → GReach (GroupCRUD.promote_member u r p g)
  | demote {g : GState} (u d : String) :
      GReach g → GReach (GroupCRUD.demote_member u d g)
  | removeM {g : GState} (u r : String) :
      GReach g → GReach (GroupCRUD.remove_member u r g)
  | transfer {g : GState} (n c : String) :
      GReach g → GReach (GroupCRUD.transfer_ownership n c g)
  | updateApproval {g : GState} (b : Bool) :
      GReach g → GReach (GroupCRUD.update_group_approval b g)

/-- Reachability through the same operations but with update_group excluded,
so the require_approval flag chosen at creation is never changed. -/
inductive GReachF : GState → Prop where
  | create (o : String) (b : Bool) : GReachF (GroupCRUD.create_group o b)
  | join {g : GState} (u : String) :
      GReachF g → GReachF (GroupCRUD.join_group u g)
  | leave {g : GState} (u : String) :
      GReachF g → GReachF (GroupCRUD.leave_group u g)
  | approve {g : GState} (u a : String) :
      GReachF g → GReachF (GroupCRUD.approve_join_request u a g)
  | reject {g : GState} (u a : String) :
      GReachF g → GReachF (GroupCRUD.reject_join_request u a g)
  | promote {g : GState} (u : String) (r : GRole) (p : String) :
      GReachF g → GReachF (GroupCRUD.promote_member u r p g)
  | demote {g : GState} (u d : String) :
      GReachF g → GReachF (GroupCRUD.demote_member u d g)
  | removeM {g : GState} (u r : String) :
      GReachF g → GReachF (GroupCRUD.remove_member u r g)
  | transfer {g : GState} (n c : String) :
      GReachF g → GReachF (GroupCRUD.transfer_ownership n c g)


theorem add_member_of_mem {g : GState} {u : String} (h : u ∈ g.members) :
    g.add_member u = g := by
  unfold GState.add_member
  rw [if_pos h]

theorem add_member_of_not_mem {g : GState} {u : String} (h : u ∉ g.members) :
    g.add_member u = GState.update_stats { g with members := addEdge g.members u } := by
  unfold GState.add_member
  rw [if_neg h]

theorem remove_member_of_mem {g : GState} {u : String} (h : u ∈ g.members) :
    g.remove_member u = GState.update_stats { g with members := removeEdge g.members u } := by
  unfold GState.remove_member
  rw [if_pos h]

theorem remove_member_of_not_mem {g : GState} {u : String} (h : u ∉ g.members) :
    g.remove_member u = g := by
  unfold GState.remove_member
  rw [if_neg h]

theorem is_member_iff {g : GState} {u : String} :
    g.is_member u = true ↔ u ∈ g.members := by
  simp [GState.is_member]

theorem join_group_of_member {g : GState} {u : String} (h : g.is_member u = true) :
    GroupCRUD.join_group u g = g := by
  unfold GroupCRUD.join_group
  rw [if_pos h]

theorem join_group_of_pending {g : GState} {u : String}
    (h1 : ¬ g.is_member u = true) (h2 : g.requireApproval = true) :
    GroupCRUD.join_group u g = { g with pending := addEdge g.pending u } := by
  unfold GroupCRUD.join_group
  rw [if_neg h1, if_pos h2]

theorem join_group_of_open {g : GState} {u : String}
    (h1 : ¬ g.is_member u = true) (h2 : ¬ g.requireApproval = true) :
    GroupCRUD.join_group u g = g.add_member u := by
  unfold GroupCRUD.join_group
  rw [if_neg h1, if_neg h2]

theorem leave_group_of_not_member {g : GState} {u : String}
    (h : ¬ g.is_member u = true) : GroupCRUD.leave_group u g = g := by
  unfold GroupCRUD.leave_group
  rw [if_pos h]

theorem leave_group_of_owner {g : GState} {u : String}
    (h1 : g.is_member u = true) (h2 : u ∈ g.owner) :
    GroupCRUD.leave_group u g = g := by
  unfold GroupCRUD.leave_group
  rw [if_neg (not_not_intro h1), if_pos h2]

theorem leave_group_of_member {g : GState} {u : String}
    (h1 : g.is_member u = true) (h2 : u ∉ g.owner) :
    GroupCRUD.leave_group u g =
      { GState.update_stats { g with members := removeEdge g.members u } with
          admins := removeEdge g.admins u,
          moderators := removeEdge g.moderators u } := by
  unfold GroupCRUD.leave_group
  rw [if_neg (not_not_intro h1), if_neg h2,
      remove_member_of_mem (is_member_iff.mp h1)]
  rfl

theorem approve_of_not_admin {g : GState} {u a : String}
    (h : ¬ g.is_admin a = true) :
    GroupCRUD.approve_join_request u a g = g := by
  unfold GroupCRUD.approve_join_request
  rw [if_pos h]

theorem approve_of_not_pending {g : GState} {u a : String}
    (h1 : g.is_admin a = true) (h2 : u ∉ g.pending) :
    GroupCRUD.approve_join_request u a g = g := by
  unfold GroupCRUD.approve_join_request
  rw [if_neg (not_not_intro h1), if_pos h2]

theorem approve_of_pending {g : GState} {u a : String}
    (h1 : g.is_admin a = true) (h2 : u ∈ g.pending) :
    GroupCRUD.approve_join_request u a g =
      GState.add_member { g with pending := removeEdge g.pending u } u := by
  unfold GroupCRUD.approve_join_request
  rw [if_neg (not_not_intro h1), if_neg (not_not_intro h2)]

theorem reject_of_not_admin {g : GState} {u a : String}
    (h : ¬ g.is_admin a = true) :
    GroupCRUD.reject_join_request u a g = g := by
  unfold GroupCRUD.reject_join_request
  rw [if_pos h]

theorem reject_of_not_pending {g : GState} {u a : String}
    (h1 : g.is_admin a = true) (h2 : u ∉ g.pending) :
    GroupCRUD.reject_join_request u a g = g := by
  unfold GroupCRUD.reject_join_request
  rw [if_neg (not_not_intro h1), if_pos h2]

theorem reject_of_pending {g : GState} {u a : String}
    (h1 : g.is_admin a = true) (h2 : u ∈ g.pending) :
    GroupCRUD.reject_join_request u a g =
      { g with pending := removeEdge g.pending u } := by
  unfold GroupCRUD.reject_join_request
  rw [if_neg (not_not_intro h1), if_neg (not_not_intro h2)]

theorem promote_of_not_owner {g : GState} {u p : String} {r : GRole}
    (h : p ∉ g.owner) : GroupCRUD.promote_member u r p g = g := by
  unfold GroupCRUD.promote_member
  rw [if_pos h]

theorem promote_of_not_member {g : GState} {u p : String} {r : GRole}
    (h1 : p ∈ g.owner) (h2 : ¬ g.is_member u = true) :
    GroupCRUD.promote_member u r p g = g := by
  unfold GroupCRUD.promote_member
  rw [if_neg (not_not_intro h1), if_pos h2]

theorem promote_of_member {g : GState} {u p : String} {r : GRole}
    (h1 : p ∈ g.owner) (h2 : g.is_member u = true) :
    GroupCRUD.promote_member u r p g =
      (match r with
       | GRole.admin => { g with admins := addEdge g.admins u }
       | GRole.moderator => { g with moderators := addEdge g.moderators u }
       | GRole.other => g) := by
  unfold GroupCRUD.promote_member
  rw [if_neg (not_not_intro h1), if_neg (not_not_intro h2)]

theorem demote_of_not_owner {g : GState} {u d : String} (h : d ∉ g.owner) :
    GroupCRUD.demote_member u d g = g := by
  unfold GroupCRUD.demote_member
  rw [if_pos h]

theorem demote_of_owner {g : GState} {u d : String} (h : d ∈ g.owner) :
    GroupCRUD.demote_member u d g =
      { g with admins := removeEdge g.admins u,
               moderators := removeEdge g.moderators u } := by
  unfold GroupCRUD.demote_member
  rw [if_neg (not_not_intro h)]

theorem remove_member_op_of_not_admin {g : GState} {u r : String}
    (h : ¬ g.is_admin r = true) : GroupCRUD.remove_member u r g = g := by
  unfold GroupCRUD.remove_member
  rw [if_pos h]

theorem remove_member_op_of_owner {g : GState} {u r : String}
    (h1 : g.is_admin r = true) (h2 : u ∈ g.owner) :
    GroupCRUD.remove_member u r g = g := by
  unfold GroupCRUD.remove_member
  rw [if_neg (not_not_intro h1), if_pos h2]

theorem remove_member_op_of_admin {g : GState} {u r : String}
    (h1 : g.is_admin r = true) (h2 : u ∉ g.owner) :
    GroupCRUD.remove_member u r g =
      { g.remove_member u with
          admins := removeEdge (g.remove_member u).admins u,
          moderators := removeEdge (g.remove_member u).moderators u } := by
  unfold GroupCRUD.remove_member
  rw [if_neg (not_not_intro h1), if_neg h2]

theorem transfer_of_not_owner {g : GState} {n c : String} (h : c ∉ g.owner) :
    GroupCRUD.transfer_ownership n c g = g := by
  unfold GroupCRUD.transfer_ownership
  rw [if_pos h]

theorem transfer_of_not_member {g : GState} {n c : String}
    (h1 : c ∈ g.owner) (h2 : ¬ g.is_member n = true) :
    GroupCRUD.transfer_ownership n c g = g := by
  unfold GroupCRUD.transfer_ownership
  rw [if_neg (not_not_intro h1), if_pos h2]

theorem transfer_of_valid {g : GState} {n c : String}
    (h1 : c ∈ g.owner) (h2 : g.is_member n = true) :
    GroupCRUD.transfer_ownership n c g =
      (if n ∈ g.admins then
        { g with owner := addEdge (removeEdge g.owner c) n }
      else
        { g with owner := addEdge (removeEdge g.owner c) n,
                 admins := addEdge g.admins n }) := by
  unfold GroupCRUD.transfer_ownership
  rw [if_neg (not_not_intro h1), if_neg (not_not_intro h2)]
  rfl

/-- Invariant used for the pending/member disjointness claim: no user holds
both a REQUESTED_TO_JOIN and a MEMBER_OF edge, and a group that does not
require approval has no pending request at all. -/
def PendingInv (g : GState) : Prop :=
  (∀ u, u ∈ g.pending → u ∉ g.members) ∧
  (g.requireApproval = false → g.pending = [])

/-- Invariant for the role-hierarchy claim: the admin and moderator edge sets
are contained in the member edge set. -/
def RolesInv (g : GState) : Prop :=
  (∀ u, u ∈ g.admins → u ∈ g.members) ∧
  (∀ u, u ∈ g.moderators → u ∈ g.members)

theorem pendingInv_create (o : String) (b : Bool) :
    PendingInv (GroupCRUD.create_group o b) := by
  refine ⟨?_, ?_⟩
  · intro u hu
    have hu2 : u ∈ ([] : List String) := hu
    cases hu2
  · intro _
    rfl

theorem pendingInv_join (u : String) {g : GState} (h : PendingInv g) :
    PendingInv (GroupCRUD.join_group u g) := by
  obtain ⟨hdisj, hopen⟩ := h
  by_cases h1 : g.is_member u = true
  · rw [join_group_of_member h1]
    exact ⟨hdisj, hopen⟩
  · by_cases h2 : g.requireApproval = true
    · rw [join_group_of_pending h1 h2]
      refine ⟨?_, ?_⟩
      · intro v hv
        have hv2 : v ∈ addEdge g.pending u := hv
        rcases mem_addEdge hv2 with rfl | hv3
        · have : v ∉ g.members := fun hm => h1 (is_member_iff.mpr hm)
          exact this
        · exact hdisj v hv3
      · intro hf
        have hf2 : g.requireApproval = false := hf
        rw [h2] at hf2
        cases hf2
    · rw [join_group_of_open h1 h2]
      have hreq : g.requireApproval = false := by
        cases hb : g.requireApproval
        · rfl
        · exact absurd hb h2
      have hemp : g.pending = [] := hopen hreq
      by_cases h3 : u ∈ g.members
      · rw [add_member_of_mem h3]
        exact ⟨hdisj, hopen⟩
      · rw [add_member_of_not_mem h3]
        refine ⟨?_, ?_⟩
        · intro v hv
          have hv2 : v ∈ g.pending := hv
          rw [hemp] at hv2
          cases hv2
        · intro _
          exact hemp

theorem pendingInv_leave (u : String) {g : GState} (h : PendingInv g) :
    PendingInv (GroupCRUD.leave_group u g) := by
  obtain ⟨hdisj, hopen⟩ := h
  by_cases h1 : g.is_member u = true
  · by_cases h2 : u ∈ g.owner
    · rw [leave_group_of_owner h1 h2]
      exact ⟨hdisj, hopen⟩
    · rw [leave_group_of_member h1 h2]
      refine ⟨?_, ?_⟩
      · intro v hv
        have hv2 : v ∈ g.pending := hv
        intro hm
        have hm2 : v ∈ removeEdge g.members u := hm
        exact hdisj v hv2 (mem_removeEdge.mp hm2).1
      · intro hf
        exact hopen hf
  · rw [leave_group_of_not_member h1]
    exact ⟨hdisj, hopen⟩

theorem pendingInv_approve (u a : String) {g : GState} (h : PendingInv g) :
    PendingInv (GroupCRUD.approve_join_request u a g) := by
  obtain ⟨hdisj, hopen⟩ := h
  by_cases h1 : g.is_admin a = true
  · by_cases h2 : u ∈ g.pending
    · rw [approve_of_pending h1 h2]
      by_cases h3 : u ∈ g.members
      · rw [add_member_of_mem (show u ∈ ({g with pending := removeEdge g.pending u} : GState).members from h3)]
        refine ⟨?_, ?_⟩
        · intro v hv
          have hv2 : v ∈ removeEdge g.pending u := hv
          exact hdisj v (mem_removeEdge.mp hv2).1
        · intro hf
          have hemp : g.pending = [] := hopen hf
          have : removeEdge g.pending u = [] := by rw [hemp]; rfl
          exact this
      · rw [add_member_of_not_mem (show u ∉ ({g with pending := removeEdge g.pending u} : GState).members from h3)]
        refine ⟨?_, ?_⟩
        · intro v hv
          have hv2 : v ∈ removeEdge g.pending u := hv
          have hv3 := mem_removeEdge.mp hv2
          intro hm
          have hm2 : v ∈ addEdge g.members u := hm
          rcases mem_addEdge hm2 with rfl | hm3
          · exact hv3.2 rfl
          · exact hdisj v hv3.1 hm3
        · intro hf
          have hemp : g.pending = [] := hopen hf
          have : removeEdge g.pending u = [] := by rw [hemp]; rfl
          exact this
    · rw [approve_of_not_pending h1 h2]
      exact ⟨hdisj, hopen⟩
  · rw [approve_of_not_admin h1]
    exact ⟨hdisj, hopen⟩

theorem pendingInv_reject (u a : String) {g : GState} (h : PendingInv g) :
    PendingInv (GroupCRUD.reject_join_request u a g) := by
  obtain ⟨hdisj, hopen⟩ := h
  by_cases h1 : g.is_admin a = true
  · by_cases h2 : u ∈ g.pending
    · rw [reject_of_pending h1 h2]
      refine ⟨?_, ?_⟩
      · intro v hv
        have hv2 : v ∈ removeEdge g.pending u := hv
        exact hdisj v (mem_removeEdge.mp hv2).1
      · intro hf
        have hemp : g.pending = [] := hopen hf
        have : removeEdge g.pending u = [] := by rw [hemp]; rfl
        exact this
    · rw [reject_of_not_pending h1 h2]
      exact ⟨hdisj, hopen⟩
  · rw [reject_of_not_admin h1]
    exact ⟨hdisj, hopen⟩

theorem pendingInv_promote (u : String) (r : GRole) (p : String) {g : GState}
    (h : PendingInv g) : PendingInv (GroupCRUD.promote_member u r p g) := by
  obtain ⟨hdisj, hopen⟩ := h
  by_cases h1 : p ∈ g.owner
  · by_cases h2 : g.is_member u = true
    · rw [promote_of_member h1 h2]
      cases r
      · exact ⟨hdisj, hopen⟩
      · exact ⟨hdisj, hopen⟩
      · exact ⟨hdisj, hopen⟩
    · rw [promote_of_not_member h1 h2]
      exact ⟨hdisj, hopen⟩
  · rw [promote_of_not_owner h1]
    exact ⟨hdisj, hopen⟩

theorem pendingInv_demote (u d : String) {g : GState} (h : PendingInv g) :
    PendingInv (GroupCRUD.demote_member u d g) := by
  obtain ⟨hdisj, hopen⟩ := h
  by_cases h1 : d ∈ g.owner
  · rw [demote_of_owner h1]
    exact ⟨hdisj, hopen⟩
  · rw [demote_of_not_owner h1]
    exact ⟨hdisj, hopen⟩

theorem pendingInv_removeOp (u r : String) {g : GState} (h : PendingInv g) :
    PendingInv (GroupCRUD.remove_member u r g) := by
  obtain ⟨hdisj, hopen⟩ := h
  by_cases h1 : g.is_admin r = true
  · by_cases h2 : u ∈ g.owner
    · rw [remove_member_op_of_owner h1 h2]
      exact ⟨hdisj, hopen⟩
    · rw [remove_member_op_of_admin h1 h2]
      by_cases h3 : u ∈ g.members
      · rw [remove_member_of_mem h3]
        refine ⟨?_, ?_⟩
        · intro v hv
          have hv2 : v ∈ g.pending := hv
          intro hm
          have hm2 : v ∈ removeEdge g.members u := hm
          exact hdisj v hv2 (mem_removeEdge.mp hm2).1
        · intro hf
          exact hopen hf
      · rw [remove_member_of_not_mem h3]
        exact ⟨hdisj, hopen⟩
  · rw [remove_member_op_of_not_admin h1]
    exact ⟨hdisj, hopen⟩

theorem pendingInv_transfer (n c : String) {g : GState} (h : PendingInv g) :
    PendingInv (GroupCRUD.transfer_ownership n c g) := by
  obtain ⟨hdisj, hopen⟩ := h
  by_cases h1 : c ∈ g.owner
  · by_cases h2 : g.is_member n = true
    · rw [transfer_of_valid h1 h2]
      by_cases h3 : n ∈ g.admins
      · rw [if_pos h3]
        exact ⟨hdisj, hopen⟩
      · rw [if_neg h3]
        exact ⟨hdisj, hopen⟩
    · rw [transfer_of_not_member h1 h2]
      exact ⟨hdisj, hopen⟩
  · rw [transfer_of_not_owner h1]
    exact ⟨hdisj, hopen⟩

theorem pendingInv_of_reachF {g : GState} (h : GReachF g) : PendingInv g := by
  induction h with
  | create o b => exact pendingInv_create o b
  | join u _ ih => exact pendingInv_join u ih
  | leave u _ ih => exact pendingInv_leave u ih
  | approve u a _ ih => exact pendingInv_approve u a ih
  | reject u a _ ih => exact pendingInv_reject u a ih
  | promote u r p _ ih => exact pendingInv_promote u r p ih
  | demote u d _ ih => exact pendingInv_demote u d ih
  | removeM u r _ ih => exact pendingInv_removeOp u r ih
  | transfer n c _ ih => exact pendingInv_transfer n c ih

theorem rolesInv_create (o : String) (b : Bool) :
    RolesInv (GroupCRUD.create_group o b) := by
  refine ⟨?_, ?_⟩
  · intro u hu
    have hu2 : u ∈ ([] : List String) := hu
    cases hu2
  · intro u hu
    have hu2 : u ∈ ([] : List String) := hu
    cases hu2

theorem rolesInv_join (u : String) {g : GState} (h : RolesInv g) :
    RolesInv (GroupCRUD.join_group u g) := by
  obtain ⟨hadm, hmod⟩ := h
  by_cases h1 : g.is_member u = true
  · rw [join_group_of_member h1]
    exact ⟨hadm, hmod⟩
  · by_cases h2 : g.requireApproval = true
    · rw [join_group_of_pending h1 h2]
      exact ⟨hadm, hmod⟩
    · rw [join_group_of_open h1 h2]
      by_cases h3 : u ∈ g.members
      · rw [add_member_of_mem h3]
        exact ⟨hadm, hmod⟩
      · rw [add_member_of_not_mem h3]
        refine ⟨?_, ?_⟩
        · intro v hv
          have hv2 : v ∈ g.admins := hv
          exact mem_addEdge_of_mem u (hadm v hv2)
        · intro v hv
          have hv2 : v ∈ g.moderators := hv
          exact mem_addEdge_of_mem u (hmod v hv2)

theorem rolesInv_leave (u : String) {g : GState} (h : RolesInv g) :
    RolesInv (GroupCRUD.leave_group u g) := by
  obtain ⟨hadm, hmod⟩ := h
  by_cases h1 : g.is_member u = true
  · by_cases h2 : u ∈ g.owner
    · rw [leave_group_of_owner h1 h2]
      exact ⟨hadm, hmod⟩
    · rw [leave_group_of_member h1 h2]
      refine ⟨?_, ?_⟩
      · intro v hv
        have hv2 : v ∈ removeEdge g.admins u := hv
        have hv3 := mem_removeEdge.mp hv2
        exact mem_removeEdge.mpr ⟨hadm v hv3.1, hv3.2⟩
      · intro v hv
        have hv2 : v ∈ removeEdge g.moderators u := hv
        have hv3 := mem_removeEdge.mp hv2
        exact mem_removeEdge.mpr ⟨hmod v hv3.1, hv3.2⟩
  · rw [leave_group_of_not_member h1]
    exact ⟨hadm, hmod⟩

theorem rolesInv_approve (u a : String) {g : GState} (h : RolesInv g) :
    RolesInv (GroupCRUD.approve_join_request u a g) := by
  obtain ⟨hadm, hmod⟩ := h
  by_cases h1 : g.is_admin a = true
  · by_cases h2 : u ∈ g.pending
    · rw [approve_of_pending h1 h2]
      by_cases h3 : u ∈ g.members
      · rw [add_member_of_mem (show u ∈ ({g with pending := removeEdge g.pending u} : GState).members from h3)]
        exact ⟨hadm, hmod⟩
      · rw [add_member_of_not_mem (show u ∉ ({g with pending := removeEdge g.pending u} : GState).members from h3)]
        refine ⟨?_, ?_⟩
        · intro v hv
          have hv2 : v ∈ g.admins := hv
          exact mem_addEdge_of_mem u (hadm v hv2)
        · intro v hv
          have hv2 : v ∈ g.moderators := hv
          exact mem_addEdge_of_mem u (hmod v hv2)
    · rw [approve_of_not_pending h1 h2]
      exact ⟨hadm, hmod⟩
  · rw [approve_of_not_admin h1]
    exact ⟨hadm, hmod⟩

theorem rolesInv_reject (u a : String) {g : GState} (h : RolesInv g) :
    RolesInv (GroupCRUD.reject_join_request u a g) := by
  obtain ⟨hadm, hmod⟩ := h
  by_cases h1 : g.is_admin a = true
  · by_cases h2 : u ∈ g.pending
    · rw [reject_of_pending h1 h2]
      exact ⟨hadm, hmod⟩
    · rw [reject_of_not_pending h1 h2]
      exact ⟨hadm, hmod⟩
  · rw [reject_of_not_admin h1]
    exact ⟨hadm, hmod⟩

theorem rolesInv_promote (u : String) (r : GRole) (p : String) {g : GState}
    (h : RolesInv g) : RolesInv (GroupCRUD.promote_member u r p g) := by
  obtain ⟨hadm, hmod⟩ := h
  by_cases h1 : p ∈ g.owner
  · by_cases h2 : g.is_member u = true
    · rw [promote_of_member h1 h2]
      have hm : u ∈ g.members := is_member_iff.mp h2
      cases r
      · refine ⟨?_, hmod⟩
        intro v hv
        have hv2 : v ∈ addEdge g.admins u := hv
        rcases mem_addEdge hv2 with rfl | hv3
        · exact hm
        · exact hadm v hv3
      · refine ⟨hadm, ?_⟩
        intro v hv
        have hv2 : v ∈ addEdge g.moderators u := hv
        rcases mem_addEdge hv2 with rfl | hv3
        · exact hm
        · exact hmod v hv3
      · exact ⟨hadm, hmod⟩
    · rw [promote_of_not_member h1 h2]
      exact ⟨hadm, hmod⟩
  · rw [promote_of_not_owner h1]
    exact ⟨hadm, hmod⟩

theorem rolesInv_demote (u d : String) {g : GState} (h : RolesInv g) :
    RolesInv (GroupCRUD.demote_member u d g) := by
  obtain ⟨hadm, hmod⟩ := h
  by_cases h1 : d ∈ g.owner
  · rw [demote_of_owner h1]
    refine ⟨?_, ?_⟩
    · intro v hv
      have hv2 : v ∈ removeEdge g.admins u := hv
      exact hadm v (mem_removeEdge.mp hv2).1
    · intro v hv
      have hv2 : v ∈ removeEdge g.moderators u := hv
      exact hmod v (mem_removeEdge.mp hv2).1
  · rw [demote_of_not_owner h1]
    exact ⟨hadm, hmod⟩

theorem rolesInv_removeOp (u r : String) {g : GState} (h : RolesInv g) :
    RolesInv (GroupCRUD.remove_member u r g) := by
  obtain ⟨hadm, hmod⟩ := h
  by_cases h1 : g.is_admin r = true
  · by_cases h2 : u ∈ g.owner
    · rw [remove_member_op_of_owner h1 h2]
      exact ⟨hadm, hmod⟩
    · rw [remove_member_op_of_admin h1 h2]
      by_cases h3 : u ∈ g.members
      · rw [remove_member_of_mem h3]
        refine ⟨?_, ?_⟩
        · intro v hv
          have hv2 : v ∈ removeEdge g.admins u := hv
          have hv3 := mem_removeEdge.mp hv2
          exact mem_removeEdge.mpr ⟨hadm v hv3.1, hv3.2⟩
        · intro v hv
          have hv2 : v ∈ removeEdge g.moderators u := hv
          have hv3 := mem_removeEdge.mp hv2
          exact mem_removeEdge.mpr ⟨hmod v hv3.1, hv3.2⟩
      · rw [remove_member_of_not_mem h3]
        refine ⟨?_, ?_⟩
        · intro v hv
          have hv2 : v ∈ removeEdge g.admins u := hv
          exact hadm v (mem_removeEdge.mp hv2).1
        · intro v hv
          have hv2 : v ∈ removeEdge g.moderators u := hv
          exact hmod v (mem_removeEdge.mp hv2).1
  · rw [remove_member_op_of_not_admin h1]
    exact ⟨hadm, hmod⟩

theorem rolesInv_transfer (n c : String) {g : GState} (h : RolesInv g) :
    RolesInv (GroupCRUD.transfer_ownership n c g) := by
  obtain ⟨hadm, hmod⟩ := h
  by_cases h1 : c ∈ g.owner
  · by_cases h2 : g.is_member n = true
    · rw [transfer_of_valid h1 h2]
      by_cases h3 : n ∈ g.admins
      · rw [if_pos h3]
        exact ⟨hadm, hmod⟩
      · rw [if_neg h3]
        refine ⟨?_, hmod⟩
        intro v hv
        have hv2 : v ∈ addEdge g.admins n := hv
        rcases mem_addEdge hv2 with rfl | hv3
        · exact is_member_iff.mp h2
        · exact hadm v hv3
    · rw [transfer_of_not_member h1 h2]
      exact ⟨hadm, hmod⟩
  · rw [transfer_of_not_owner h1]
    exact ⟨hadm, hmod⟩

theorem rolesInv_updateApproval (b : Bool) {g : GState} (h : RolesInv g) :
    RolesInv (GroupCRUD.update_group_approval b g) := by
  obtain ⟨hadm, hmod⟩ := h
  exact ⟨hadm, hmod⟩

theorem rolesInv_of_reach {g : GState} (h : GReach g) : RolesInv g := by
  induction h with
  | create o b => exact rolesInv_create o b
  | join u _ ih => exact rolesInv_join u ih
  | leave u _ ih => exact rolesInv_leave u ih
  | approve u a _ ih => exact rolesInv_approve u a ih
  | reject u a _ ih => exact rolesInv_reject u a ih
  | promote u r p _ ih => exact rolesInv_promote u r p ih
  | demote u d _ ih => exact rolesInv_demote u d ih
  | removeM u r _ ih => exact rolesInv_removeOp u r ih
  | transfer n c _ ih => exact rolesInv_transfer n c ih
  | updateApproval b _ ih => exact rolesInv_updateApproval b ih

theorem removeEdge_single (c : String) : removeEdge [c] c = [] := by
  simp [removeEdge]

theorem addEdge_nil (n : String) : addEdge [] n = [n] := by
  simp [addEdge]

/-- C2: on a group requiring approval, join of a non-member leaves the user a
non-member with a pending requested-to-join edge; a subsequent approval by a
group admin makes the user a member and clears the pending edge. -/
theorem join_requires_approval_then_approve
    (g : GState) (u a : String)
    (hreq : g.requireApproval = true)
    (hnm : g.is_member u = false)
    (hadm : g.is_admin a = true) :
    GState.is_member (GroupCRUD.join_group u g) u = false ∧
    u ∈ (GroupCRUD.join_group u g).pending ∧
    GState.is_member
      (GroupCRUD.approve_join_request u a (GroupCRUD.join_group u g)) u = true ∧
    u ∉ (GroupCRUD.approve_join_request u a (GroupCRUD.join_group u g)).pending := by
  have h1 : ¬ g.is_member u = true := by rw [hnm]; exact Bool.false_ne_true
  have hnotmem : u ∉ g.members := fun hm => h1 (is_member_iff.mpr hm)
  have hj : GroupCRUD.join_group u g = { g with pending := addEdge g.pending u } :=
    join_group_of_pending h1 hreq
  rw [hj]
  have hadm2 : GState.is_admin { g with pending := addEdge g.pending u } a = true := hadm
  have hpend2 : u ∈ ({ g with pending := addEdge g.pending u } : GState).pending :=
    self_mem_addEdge g.pending u
  refine ⟨?_, hpend2, ?_, ?_⟩
  · exact hnm
  · rw [approve_of_pending hadm2 hpend2,
        add_member_of_not_mem
          (show u ∉ ({ g with pending := removeEdge (addEdge g.pending u) u } : GState).members
            from hnotmem)]
    have : u ∈ addEdge g.members u := self_mem_addEdge g.members u
    exact is_member_iff.mpr this
  · rw [approve_of_pending hadm2 hpend2,
        add_member_of_not_mem
          (show u ∉ ({ g with pending := removeEdge (addEdge g.pending u) u } : GState).members
            from hnotmem)]
    intro hmem
    have hmem2 : u ∈ removeEdge (addEdge g.pending u) u := hmem
    exact (mem_removeEdge.mp hmem2).2 rfl

/-- Witness for C2 at the group created by alice with require_approval=true,
bob joining and alice approving. -/
theorem join_requires_approval_then_approve_witness :
    GState.is_member
      (GroupCRUD.join_group "bob" (GroupCRUD.create_group "alice" true)) "bob" = false ∧
    "bob" ∈ (GroupCRUD.join_group "bob" (GroupCRUD.create_group "alice" true)).pending ∧
    GState.is_member
      (GroupCRUD.approve_join_request "bob" "alice"
        (GroupCRUD.join_group "bob" (GroupCRUD.create_group "alice" true))) "bob" = true ∧
    "bob" ∉ (GroupCRUD.approve_join_request "bob" "alice"
        (GroupCRUD.join_group "bob" (GroupCRUD.create_group "alice" true))).pending :=
  join_requires_approval_then_approve (GroupCRUD.create_group "alice" true)
    "bob" "alice" (by decide) (by decide) (by decide)

/-- Group state with owner alice and additional member bob, the precondition
of a valid ownership transfer to bob. -/
def c3_state : GState :=
  GroupCRUD.join_group "bob" (GroupCRUD.create_group "alice" false)

/-- C3 counterexample: the transfer is two separate statements; executing only
the first (the disconnect of the current owner) from a valid pre-state leaves
the OWNS edge set empty, so neither the old nor the new owner holds owner-of
and the operation is not atomic as a unit. -/
theorem transfer_ownership_interrupted_zero_owner :
    c3_state.owner = ["alice"] ∧
    c3_state.is_member "bob" = true ∧
    (runSteps ((GroupCRUD.transfer_steps "bob" "alice").take 1) c3_state).owner = [] := by
  decide

/-- C3 amended: a run of transfer_ownership to completion leaves exactly the
new owner holding OWNS; but the interrupted prefix that stops after the
disconnect leaves zero owners, so the sequence is not atomic. -/
theorem transfer_ownership_completed_exactly_one_owner
    (g : GState) (n c : String)
    (hown : g.owner = [c]) (hmem : g.is_member n = true) :
    (GroupCRUD.transfer_ownership n c g).owner = [n] ∧
    (runSteps ((GroupCRUD.transfer_steps n c).take 1) g).owner = [] := by
  have hc : c ∈ g.owner := by rw [hown]; exact List.mem_cons_self c []
  constructor
  · rw [transfer_of_valid hc hmem]
    by_cases h3 : n ∈ g.admins
    · rw [if_pos h3]
      show addEdge (removeEdge g.owner c) n = [n]
      rw [hown, removeEdge_single, addEdge_nil]
    · rw [if_neg h3]
      show addEdge (removeEdge g.owner c) n = [n]
      rw [hown, removeEdge_single, addEdge_nil]
  · show removeEdge g.owner c = []
    rw [hown, removeEdge_single]

/-- Witness for the amended C3 at the concrete two-member group. -/
theorem transfer_ownership_completed_exactly_one_owner_witness :
    (GroupCRUD.transfer_ownership "bob" "alice" c3_state).owner = ["bob"] ∧
    (runSteps ((GroupCRUD.transfer_steps "bob" "alice").take 1) c3_state).owner = [] :=
  transfer_ownership_completed_exactly_one_owner c3_state "bob" "alice"
    (by decide) (by decide)

/-- State reached by: create group (require_approval=true) owned by alice;
bob requests to join (pending); update_group flips require_approval to false;
bob joins again and is added as member while the stale pending edge stays. -/
def c4_state : GState :=
  GroupCRUD.join_group "bob"
    (GroupCRUD.update_group_approval false
      (GroupCRUD.join_group "bob" (GroupCRUD.create_group "alice" true)))

/-- C4 counterexample: a state reachable by the group operations
(create_group, join_group, update_group, join_group) in which bob is
simultaneously connected by a pending and a member edge. -/
theorem pending_and_member_overlap_reachable :
    GReach c4_state ∧ "bob" ∈ c4_state.pending ∧ "bob" ∈ c4_state.members :=
  ⟨GReach.join "bob" (GReach.updateApproval false
      (GReach.join "bob" (GReach.create "alice" true))),
   by decide, by decide⟩

/-- C4 amended: in every state reachable by the group operations with
update_group excluded (so require_approval keeps its creation value), no user
is simultaneously connected by a requested-to-join and a member-of edge. -/
theorem pending_member_disjoint_without_approval_toggle
    (g : GState) (hg : GReachF g) (u : String) :
    ¬ (u ∈ g.pending ∧ u ∈ g.members) :=
  fun hc => (pendingInv_of_reachF hg).1 u hc.1 hc.2

/-- Witness for the amended C4 at the freshly created group. -/
theorem pending_member_disjoint_without_approval_toggle_witness :
    ¬ ("bob" ∈ (GroupCRUD.create_group "alice" true).pending ∧
       "bob" ∈ (GroupCRUD.create_group "alice" true).members) :=
  pending_member_disjoint_without_approval_toggle
    (GroupCRUD.create_group "alice" true) (GReachF.create "alice" true) "bob"

/-- C10: in every state reachable by the group operations, every user holding
an admin-of or moderator-of edge also holds a member-of edge. -/
theorem admins_moderators_subset_members
    (g : GState) (hg : GReach g) :
    (∀ u, u ∈ g.admins → u ∈ g.members) ∧
    (∀ u, u ∈ g.moderators → u ∈ g.members) :=
  rolesInv_of_reach hg

/-- Witness for C10: after the owner promotes herself to admin in a fresh
group, she is in the member set. -/
theorem admins_moderators_subset_members_witness :
    "alice" ∈ (GroupCRUD.promote_member "alice" GRole.admin "alice"
        (GroupCRUD.create_group "alice" true)).members :=
  (admins_moderators_subset_members _
      (GReach.promote "alice" GRole.admin "alice" (GReach.create "alice" true))).1
    "alice" (by decide)

/-- State of one User node: the FOLLOWS edge sets in both directions, the
POSTED edge set, and the three denormalized counters (app/models/user.py). -/
structure UState where
  followers : List String
  following : List String
  posts : List String
  followers_count : Nat
  following_count : Nat
  posts_count : Nat
deriving DecidableEq, Repr

/-- User.update_stats (user.py:70-75): full recount of the three edge sets. -/
def UState.update_stats (u : UState) : UState :=
  { u with followers_count := u.followers.length,
           following_count := u.following.length,
           posts_count := u.posts.length }

/-- State of one Post node: the LIKED, HAS_COMMENT and SHARED edge sets and
the four engagement counters (app/models/post.py). -/
structure PState where
  liked_by : List String
  comments : List String
  shared_by : List String
  likes_count : Nat
  comments_count : Nat
  shares_count : Nat
  views_count : Nat
deriving DecidableEq, Repr

/-- Post.update_engagement_stats (post.py:70-75): full recount of likes,
comments and shares; views_count is not recomputed. -/
def PState.update_engagement_stats (p : PState) : PState :=
  { p with likes_count := p.liked_by.length,
           comments_count := p.comments.length,
           shares_count := p.shared_by.length }

/-- State of one Comment node: the LIKED_COMMENT and incoming REPLY_TO edge
sets and the two counters (app/models/comment.py). -/
structure CState where
  liked_by : List String
  replies : List String
  likes_count : Nat
  replies_count : Nat
deriving DecidableEq, Repr

/-- Comment.update_engagement_stats (comment.py:44-48): full recount. -/
def CState.update_engagement_stats (c : CState) : CState :=
  { c with likes_count := c.liked_by.length,
           replies_count := c.replies.length }

/-- State of one Hashtag node: usage_count, the last_used timestamp and the
TAGGED_WITH edge set (app/models/hashtag.py). -/
structure HState where
  name : String
  usage_count : Nat
  last_used : Nat
  posts : List String
deriving DecidableEq, Repr

/-- Hashtag.increment_usage (hashtag.py:34-38): usage_count is incremented in
place and last_used set to the current time; the edge set is not consulted. -/
def HState.increment_usage (now : Nat) (h : HState) : HState :=
  { h with usage_count := h.usage_count + 1, last_used := now }

/-- Hashtag state before a create_post that references the tag: stored
counter 0, no TAGGED_WITH edges (create_post stores hashtags only as a string
array on the Post and never connects TAGGED_WITH, post_crud.py:31-41). -/
def h1_state : HState :=
  { name := "tag", usage_count := 0, last_used := 0, posts := [] }

/-- C1 counterexample: increment_usage (called by PostCRUD.create_post for
every referenced hashtag) moves usage_count from 0 to 1 while the relevant
edge set stays empty, so the counter is updated in place, not recomputed as a
full count of the edge set. -/
theorem hashtag_increment_in_place_counterexample :
    (HState.increment_usage 5 h1_state).usage_count = 1 ∧
    (HState.increment_usage 5 h1_state).posts.length = 0 ∧
    (HState.increment_usage 5 h1_state).usage_count ≠
      (HState.increment_usage 5 h1_state).posts.length := by
  decide

/-- C1 amended: the recompute operations of User, Post, Group and Comment
assign every counter they own the exact size of its edge set, while
Hashtag.usage_count alone is maintained by an in-place increment that leaves
the edge set untouched. -/
theorem counters_recomputed_except_hashtag_usage
    (u : UState) (p : PState) (g : GState) (c : CState) (h : HState) (now : Nat) :
    (UState.update_stats u).followers_count = u.followers.length ∧
    (UState.update_stats u).following_count = u.following.length ∧
    (UState.update_stats u).posts_count = u.posts.length ∧
    (PState.update_engagement_stats p).likes_count = p.liked_by.length ∧
    (PState.update_engagement_stats p).comments_count = p.comments.length ∧
    (PState.update_engagement_stats p).shares_count = p.shared_by.length ∧
    (GState.update_stats g).membersCount = g.members.length ∧
    (GState.update_stats g).postsCount = g.posts.length ∧
    (CState.update_engagement_stats c).likes_count = c.liked_by.length ∧
    (CState.update_engagement_stats c).replies_count = c.replies.length ∧
    (HState.increment_usage now h).usage_count = h.usage_count + 1 ∧
    (HState.increment_usage now h).posts = h.posts :=
  ⟨rfl, rfl, rfl, rfl, rfl, rfl, rfl, rfl, rfl, rfl, rfl, rfl⟩

/-- C5: every counter recomputation is idempotent; a second call with no
intervening edge change returns the identical node state, counters
included. -/
theorem update_stats_idempotent (u : UState) (p : PState) (g : GState) (c : CState) :
    UState.update_stats (UState.update_stats u) = UState.update_stats u ∧
    PState.update_engagement_stats (PState.update_engagement_stats p) =
      PState.update_engagement_stats p ∧
    GState.update_stats (GState.update_stats g) = GState.update_stats g ∧
    CState.update_engagement_stats (CState.update_engagement_stats c) =
      CState.update_engagement_stats c :=
  ⟨rfl, rfl, rfl, rfl⟩

/-- Error taxonomy of the spec: the raised ValueError on self-follow maps to
the InvalidOperation kind. -/
inductive ErrKind where
  | notFound
  | forbidden
  | invalidOperation
  | conflict
deriving DecidableEq, Repr

/-- Notification node with its RECEIVED_NOTIFICATION and SENT_NOTIFICATION
edge sets (app/models/notification.py). -/
structure SNotif where
  title : String
  message : String
  ntype : String
  recipients : List String
  senders : List String
deriving DecidableEq, Repr

/-- Notification.create_follow_notification (notification.py:84-96): the node
is saved and then connected to both the sender and the recipient. -/
def Notification.create_follow_notification
    (senderUid senderName recipientUid : String) : SNotif :=
  { title := senderName ++ " started following you",
    message := senderName ++ " is now following you",
    ntype := "follow",
    recipients := [recipientUid],
    senders := [senderUid] }

/-- One User row as the follow graph sees it: uid, username and the three
denormalized counters. -/
structure FUser where
  uid : String
  username : String
  followers_count : Nat
  following_count : Nat
  posts_count : Nat
deriving DecidableEq, Repr

/-- World state for the user graph: user nodes, FOLLOWS edges
(follower uid, followee uid), POSTED edges (author uid, post uid), and the
notification nodes created so far. -/
structure FState where
  users : List FUser
  follows : List (String × String)
  posts : List (String × String)
  notifs : List SNotif
deriving DecidableEq, Repr

/-- Username of a user node, resolved by uid. -/
def usernameOf (w : FState) (x : String) : String :=
  match w.users.find? (fun u => u.uid == x) with
  | some u => u.username
  | none => ""

/-- User.update_stats (user.py:70-75) for the node with uid x: recount the
incoming FOLLOWS, outgoing FOLLOWS and POSTED edge sets. -/
def FState.update_stats (w : FState) (x : String) : FState :=
  { w with users := w.users.map (fun u =>
      if u.uid = x then
        { u with
            followers_count := (w.follows.filter (fun pr => pr.2 == x)).length,
            following_count := (w.follows.filter (fun pr => pr.1 == x)).length,
            posts_count := (w.posts.filter (fun pr => pr.1 == x)).length }
      else u) }

/-- UserCRUD.follow_user (user_crud.py:143-160): self-follow raises before any
mutation; an existing edge is a no-op returning False; otherwise the FOLLOWS
edge is connected, both users recount their stats, and a follow notification
is created. -/
def UserCRUD.follow_user (a b : String) (w : FState) :
    Except ErrKind (FState × Bool) :=
  if a = b then Except.error ErrKind.invalidOperation
  else if (a, b) ∈ w.follows then Except.ok (w, false)
  else
    Except.ok
      (let w1 : FState := { w with follows := (a, b) :: w.follows }
       let w2 := (w1.update_stats a).update_stats b
       { w2 with notifs :=
           Notification.create_follow_notification a (usernameOf w a) b :: w2.notifs },
       true)

/-- UserCRUD.is_following (user_crud.py:177-179): point lookup of the FOLLOWS
edge. -/
def UserCRUD.is_following (a b : String) (w : FState) : Bool :=
  decide ((a, b) ∈ w.follows)

/-- C6: follow(A,A) always fails with InvalidOperation (and hence produces no
state change at all), and whenever follow(A,B) returns a result state,
isFollowing(A,B) holds in it. -/
theorem follow_self_invalid_and_follow_then_following
    (w : FState) (a b : String) :
    UserCRUD.follow_user a a w = Except.error ErrKind.invalidOperation ∧
    (a ≠ b → ∀ res : FState × Bool,
      UserCRUD.follow_user a b w = Except.ok res →
      UserCRUD.is_following a b res.1 = true) := by
  constructor
  · unfold UserCRUD.follow_user
    rw [if_pos rfl]
  · intro hne res hok
    unfold UserCRUD.follow_user at hok
    rw [if_neg hne] at hok
    by_cases h2 : (a, b) ∈ w.follows
    · rw [if_pos h2] at hok
      have hres : (w, false) = res := Except.ok.inj hok
      rw [← hres]
      exact decide_eq_true h2
    · rw [if_neg h2] at hok
      have hres := Except.ok.inj hok
      rw [← hres]
      show decide ((a, b) ∈ (a, b) :: w.follows) = true
      exact decide_eq_true (List.mem_cons_self _ _)

/-- Two-user world for the follow witness. -/
def w6 : FState :=
  { users := [⟨"u1", "alice", 0, 0, 0⟩, ⟨"u2", "bob", 0, 0, 0⟩],
    follows := [], posts := [], notifs := [] }

/-- Result of alice following bob in the two-user world. -/
def w6res : FState × Bool :=
  match UserCRUD.follow_user "u1" "u2" w6 with
  | Except.ok r => r
  | Except.error _ => (w6, false)

/-- Witness for C6 in the two-user world. -/
theorem follow_self_invalid_and_follow_then_following_witness :
    UserCRUD.follow_user "u1" "u1" w6 = Except.error ErrKind.invalidOperation ∧
    UserCRUD.is_following "u1" "u2" w6res.1 = true :=
  ⟨(follow_self_invalid_and_follow_then_following w6 "u1" "u1").1,
   (follow_self_invalid_and_follow_then_following w6 "u1" "u2").2
     (by decide) w6res rfl⟩

/-- Username lookup used by the mention loops; a missing user resolves to
none (the DoesNotExist branch). -/
def lookupByUsername (users : List FUser) (name : String) : Option FUser :=
  users.find? (fun u => u.username == name)

/-- Mention loop of PostCRUD.create_post (post_crud.py:43-55): for each
username that resolves to a user other than the author, a Notification node
is saved; the source connects no recipient, sender or related-post edge, so
the created node has empty edge sets.  Unresolved usernames are skipped. -/
def PostCRUD.mention_notifications (users : List FUser)
    (authorUid authorName content : String) (mentions : List String) :
    List SNotif :=
  mentions.filterMap (fun name =>
    match lookupByUsername users name with
    | some mu =>
      if mu.uid ≠ authorUid then
        some { title := authorName ++ " mentioned you in a post",
               message := authorName ++ " mentioned you: " ++ content.take 100 ++ "...",
               ntype := "mention",
               recipients := [],
               senders := [] }
      else none
    | none => none)

/-- Mention loop of CommentCRUD.create_comment (comment_crud.py:49-60): same
shape, comment wording; again no recipient edge is connected. -/
def CommentCRUD.mention_notifications (users : List FUser)
    (authorUid authorName content : String) (mentions : List String) :
    List SNotif :=
  mentions.filterMap (fun name =>
    match lookupByUsername users name with
    | some mu =>
      if mu.uid ≠ authorUid then
        some { title := authorName ++ " mentioned you in a comment",
               message := authorName ++ " mentioned you: " ++ content.take 100 ++ "...",
               ntype := "mention",
               recipients := [],
               senders := [] }
      else none
    | none => none)

/-- Users present when the failing post and comment are created. -/
def c8_users : List FUser :=
  [⟨"u1", "alice", 0, 0, 0⟩, ⟨"u2", "bob", 0, 0, 0⟩]

/-- C8: evaluating the mention path at the failing input.  When alice creates
a post mentioning the existing, distinct user bob, a mention notification
node is created but its RECEIVED_NOTIFICATION edge set is empty, so no user
receives it (the claim expects bob to); unresolved and self mentions are
skipped silently, and the comment path behaves identically. -/
theorem mention_notification_has_no_recipient :
    PostCRUD.mention_notifications c8_users "u1" "alice" "hi @bob" ["bob"] =
      [{ title := "alice mentioned you in a post",
         message := "alice mentioned you: hi @bob...",
         ntype := "mention", recipients := [], senders := [] }] ∧
    (∀ n ∈ PostCRUD.mention_notifications c8_users "u1" "alice" "hi @bob" ["bob"],
        n.recipients = []) ∧
    PostCRUD.mention_notifications c8_users "u1" "alice" "hi" ["ghost"] = [] ∧
    PostCRUD.mention_notifications c8_users "u2" "bob" "me" ["bob"] = [] ∧
    CommentCRUD.mention_notifications c8_users "u1" "alice" "hey @bob" ["bob", "ghost"] =
      [{ title := "alice mentioned you in a comment",
         message := "alice mentioned you: hey @bob...",
         ntype := "mention", recipients := [], senders := [] }] := by
  set_option maxRecDepth 4000 in decide

/-- One Comment node as the thread query sees it: uid, the optional REPLY_TO
parent pointer, and the creation timestamp used as sort key
(app/models/comment.py). -/
structure SComment where
  uid : String
  parentUid : Option String
  createdAt : Nat
deriving DecidableEq, Repr

/-- Lookup of a comment node by uid in the store. -/
def findComment (store : List SComment) (u : String) : Option SComment :=
  store.find? (fun c => c.uid == u)

/-- The parent_comment.single() call: follow the REPLY_TO pointer if set. -/
def parentOf (store : List SComment) (c : SComment) : Option SComment :=
  match c.parentUid with
  | none => none
  | some p => findComment store p

/-- Upward walk of get_comment_thread (comment_crud.py:203-208): follow the
parent chain to the root.  The source runs an unbounded while loop; the walk
here carries fuel, and the thread query passes the store size, enough for any
acyclic chain. -/
def rootFrom (store : List SComment) : Nat → SComment → SComment
  | 0, c => c
  | fuel + 1, c =>
    match parentOf store c with
    | none => c
    | some pc => rootFrom store fuel pc

/-- The Cypher pattern (root)<-[:REPLY_TO*0..]-(comment): the comment lies in
the thread of the root when its parent chain reaches the root uid. -/
def inThread (store : List SComment) : Nat → SComment → String → Bool
  | 0, c, r => c.uid == r
  | fuel + 1, c, r =>
    c.uid == r ||
      (match parentOf store c with
       | none => false
       | some pc => inThread store fuel pc r)

/-- Sort key of the thread query: creation time ascending. -/
def byCreated (x y : SComment) : Prop :=
  x.createdAt ≤ y.createdAt

instance : DecidableRel byCreated :=
  fun x y => Nat.decLe x.createdAt y.createdAt

instance : IsTotal SComment byCreated :=
  ⟨fun x y => Nat.le_total x.createdAt y.createdAt⟩

instance : IsTrans SComment byCreated :=
  ⟨fun _ _ _ => Nat.le_trans⟩

/-- CommentCRUD.get_comment_thread (comment_crud.py:201-220): walk up to the
root, then return every comment of the store whose chain reaches the root,
ordered by creation time ascending. -/
def CommentCRUD.get_comment_thread (store : List SComment) (c : SComment) :
    List SComment :=
  List.insertionSort byCreated
    (store.filter (fun x =>
      inThread store store.length x (rootFrom store store.length c).uid))

theorem rootFrom_of_none {store : List SComment} {fuel : Nat} {c : SComment}
    (h : c.parentUid = none) : rootFrom store fuel c = c := by
  cases fuel
  · rfl
  · simp [rootFrom, parentOf, h]

theorem rootFrom_step {store : List SComment} {fuel : Nat} {c pc : SComment}
    {p : String} (hp : c.parentUid = some p) (hf : findComment store p = some pc) :
    rootFrom store (fuel + 1) c = rootFrom store fuel pc := by
  simp [rootFrom, parentOf, hp, hf]

theorem inThread_self {store : List SComment} {fuel : Nat} {c : SComment} :
    inThread store fuel c c.uid = true := by
  cases fuel
  · simp [inThread]
  · simp [inThread]

theorem inThread_step {store : List SComment} {fuel : Nat} {c pc : SComment}
    {p r : String} (hp : c.parentUid = some p)
    (hf : findComment store p = some pc)
    (h : inThread store fuel pc r = true) :
    inThread store (fuel + 1) c r = true := by
  simp [inThread, parentOf, hp, hf, h]

/-- C7: in a store where root R has the two-deep reply chain R <- C1 <- C2 and
no other stored comment lies in the thread of R, getThread(C2) walks up to R
and returns exactly {R, C1, C2}, ordered by creation time ascending. -/
theorem get_comment_thread_returns_sorted_thread
    (store : List SComment) (R C1 C2 : SComment)
    (hnd : store.Nodup)
    (hRmem : R ∈ store) (hC1mem : C1 ∈ store) (hC2mem : C2 ∈ store)
    (hu1 : R ≠ C1) (hu2 : R ≠ C2) (hu3 : C1 ≠ C2)
    (hRroot : R.parentUid = none)
    (hC1par : C1.parentUid = some R.uid)
    (hC2par : C2.parentUid = some C1.uid)
    (hfR : findComment store R.uid = some R)
    (hfC1 : findComment store C1.uid = some C1)
    (hlen : 2 ≤ store.length)
    (hOnly : ∀ x ∈ store, x ≠ R → x ≠ C1 → x ≠ C2 →
      inThread store store.length x R.uid = false) :
    List.Perm (CommentCRUD.get_comment_thread store C2) [R, C1, C2] ∧
    List.Sorted byCreated (CommentCRUD.get_comment_thread store C2) := by
  obtain ⟨m, hm⟩ : ∃ m, store.length = m + 2 := ⟨store.length - 2, by omega⟩
  have hroot : rootFrom store store.length C2 = R := by
    rw [hm, rootFrom_step hC2par hfC1, rootFrom_step hC1par hfR,
        rootFrom_of_none hRroot]
  have hTR : inThread store store.length R R.uid = true := inThread_self
  have hTC1 : inThread store store.length C1 R.uid = true := by
    rw [hm]
    exact inThread_step hC1par hfR inThread_self
  have hTC2 : inThread store store.length C2 R.uid = true := by
    rw [hm]
    exact inThread_step hC2par hfC1 (inThread_step hC1par hfR inThread_self)
  have hthread : CommentCRUD.get_comment_thread store C2 =
      List.insertionSort byCreated
        (store.filter (fun x => inThread store store.length x R.uid)) := by
    unfold CommentCRUD.get_comment_thread
    rw [hroot]
  have hmemf : ∀ a,
      a ∈ store.filter (fun x => inThread store store.length x R.uid) ↔
      a ∈ [R, C1, C2] := by
    intro a
    rw [List.mem_filter]
    constructor
    · rintro ⟨ha, hpa⟩
      by_cases h1 : a = R
      · simp [h1]
      · by_cases h2 : a = C1
        · simp [h2]
        · by_cases h3 : a = C2
          · simp [h3]
          · rw [hOnly a ha h1 h2 h3] at hpa
            cases hpa
    · intro ha
      rcases List.mem_cons.mp ha with rfl | ha
      · exact ⟨hRmem, hTR⟩
      · rcases List.mem_cons.mp ha with rfl | ha
        · exact ⟨hC1mem, hTC1⟩
        · rcases List.mem_cons.mp ha with rfl | ha
          · exact ⟨hC2mem, hTC2⟩
          · cases ha
  have hndf : (store.filter (fun x => inThread store store.length x R.uid)).Nodup :=
    List.Nodup.filter _ hnd
  have hndl : ([R, C1, C2] : List SComment).Nodup := by
    simp [hu1, hu2, hu3]
  have hpermf :
      List.Perm (store.filter (fun x => inThread store store.length x R.uid))
        [R, C1, C2] :=
    (List.perm_ext_iff_of_nodup hndf hndl).mpr hmemf
  constructor
  · rw [hthread]
    exact (List.perm_insertionSort byCreated _).trans hpermf
  · rw [hthread]
    exact List.sorted_insertionSort byCreated _

/-- Root comment of the concrete thread. -/
def c7_R : SComment := ⟨"r", none, 1⟩

/-- First reply, to the root. -/
def c7_C1 : SComment := ⟨"c1", some "r", 2⟩

/-- Second reply, to the first reply. -/
def c7_C2 : SComment := ⟨"c2", some "c1", 3⟩

/-- Store holding exactly the three-comment thread. -/
def c7_store : List SComment := [c7_R, c7_C1, c7_C2]

/-- Witness for C7 at the concrete three-comment thread. -/
theorem get_comment_thread_returns_sorted_thread_witness :
    List.Perm (CommentCRUD.get_comment_thread c7_store c7_C2) [c7_R, c7_C1, c7_C2] ∧
    List.Sorted byCreated (CommentCRUD.get_comment_thread c7_store c7_C2) :=
  get_comment_thread_returns_sorted_thread c7_store c7_R c7_C1 c7_C2
    (by decide) (by decide) (by decide) (by decide)
    (by decide) (by decide) (by decide)
    (by decide) (by decide) (by decide)
    (by decide) (by decide) (by decide) (by decide)

/-- Contiguous containment of a needle in a haystack, the semantics of the
Cypher CONTAINS operator (case-sensitive). -/
def containsSub (needle : List Char) : List Char → Bool
  | [] => needle.isEmpty
  | a :: t => needle.isPrefixOf (a :: t) || containsSub needle t

/-- String CONTAINS: hay contains needle as a contiguous substring. -/
def strContains (hay needle : String) : Bool :=
  containsSub needle.data hay.data

/-- Python str.lower as applied to the query parameter. -/
def lowerStr (s : String) : String :=
  String.mk (s.data.map Char.toLower)

/-- Scalar fields of a User node consulted by search_users. -/
structure QUser where
  uid : String
  username : String
  first_name : String
  last_name : String
deriving DecidableEq, Repr

/-- WHERE clause of UserCRUD.search_users (user_crud.py:218-226): the stored
fields are compared as stored, case-sensitively, against the query value. -/
def userMatches (q : String) (u : QUser) : Bool :=
  strContains u.username q || strContains u.first_name q || strContains u.last_name q

/-- Sort key of search_users: ORDER BY u.username. -/
def byUsername (u v : QUser) : Prop :=
  u.username ≤ v.username

instance : DecidableRel byUsername :=
  fun u v => inferInstanceAs (Decidable (u.username ≤ v.username))

instance : IsTotal QUser byUsername :=
  ⟨fun u v => le_total u.username v.username⟩

instance : IsTrans QUser byUsername :=
  ⟨fun _ _ _ => le_trans⟩

/-- UserCRUD.search_users (user_crud.py:216-233): the query string is
lowercased in Python, then matched case-sensitively by CONTAINS; results are
ordered by username with skip/limit pagination. -/
def UserCRUD.search_users (q : String) (store : List QUser)
    (skip lim : Nat) : List QUser :=
  ((List.insertionSort byUsername
      (store.filter (fun u => userMatches (lowerStr q) u))).drop skip).take lim

/-- Scalar fields of a Post node consulted by search_posts. -/
structure QPost where
  uid : String
  content : String
  visibility : String
  is_archived : Bool
  created_at : Nat
deriving DecidableEq, Repr

/-- WHERE clause of PostCRUD.search_posts (post_crud.py:227-235): content
CONTAINS the query value, public visibility, not archived. -/
def postMatches (q : String) (p : QPost) : Bool :=
  strContains p.content q && p.visibility == "public" && p.is_archived == false

/-- Sort key of search_posts: ORDER BY created_at DESC. -/
def byCreatedDesc (p q : QPost) : Prop :=
  q.created_at ≤ p.created_at

instance : DecidableRel byCreatedDesc :=
  fun p q => Nat.decLe q.created_at p.created_at

instance : IsTotal QPost byCreatedDesc :=
  ⟨fun p q => (Nat.le_total q.created_at p.created_at)⟩

instance : IsTrans QPost byCreatedDesc :=
  ⟨fun _ _ _ h1 h2 => Nat.le_trans h2 h1⟩

/-- PostCRUD.search_posts (post_crud.py:225-242): lowercased query matched
case-sensitively against content, public and non-archived only, newest
first. -/
def PostCRUD.search_posts (q : String) (store : List QPost)
    (skip lim : Nat) : List QPost :=
  ((List.insertionSort byCreatedDesc
      (store.filter (fun p => postMatches (lowerStr q) p))).drop skip).take lim

/-- Matching relation written from the claim text: the stored field contains
the query ignoring letter case (both sides lowercased). -/
def specUserMatches (q : String) (u : QUser) : Bool :=
  strContains (lowerStr u.username) (lowerStr q) ||
  strContains (lowerStr u.first_name) (lowerStr q) ||
  strContains (lowerStr u.last_name) (lowerStr q)

/-- Matching relation from the claim text for posts. -/
def specPostMatches (q : String) (p : QPost) : Bool :=
  strContains (lowerStr p.content) (lowerStr q) &&
  p.visibility == "public" && p.is_archived == false

/-- User whose stored username has an uppercase letter. -/
def c9_alice : QUser := ⟨"u1", "Alice", "", ""⟩

/-- Public post whose stored content has uppercase letters. -/
def c9_post : QPost := ⟨"p1", "Hello World", "public", false, 1⟩

/-- C9 counterexample: for query "Ali" the claim (case-insensitive
containment) matches the stored user "Alice", yet search_users returns
nothing, because the code lowercases only the query and the Cypher CONTAINS
comparison is case-sensitive; likewise for post content. -/
theorem search_not_case_insensitive_counterexample :
    specUserMatches "Ali" c9_alice = true ∧
    UserCRUD.search_users "Ali" [c9_alice] 0 20 = [] ∧
    specPostMatches "Hello" c9_post = true ∧
    PostCRUD.search_posts "Hello" [c9_post] 0 20 = [] := by
  decide

/-- C9 amended: an entity is returned by search exactly when a searched
stored field contains the lowercased query as a case-sensitive substring (so
the match is insensitive to the case of the query but sensitive to the case
of the stored text), posts additionally filtered to public, non-archived. -/
theorem search_matches_lowercased_query
    (q : String) (us : List QUser) (ps : List QPost) (lim : Nat)
    (hu : us.length ≤ lim) (hp : ps.length ≤ lim) :
    (∀ u, u ∈ UserCRUD.search_users q us 0 lim ↔
      u ∈ us ∧ userMatches (lowerStr q) u = true) ∧
    (∀ p, p ∈ PostCRUD.search_posts q ps 0 lim ↔
      p ∈ ps ∧ postMatches (lowerStr q) p = true) := by
  constructor
  · intro u
    unfold UserCRUD.search_users
    have h1 : (List.insertionSort byUsername
        (us.filter (fun x => userMatches (lowerStr q) x))).length ≤ lim := by
      rw [List.length_insertionSort]
      exact le_trans (List.length_filter_le _ _) hu
    rw [List.drop_zero, List.take_of_length_le h1, List.mem_insertionSort,
        List.mem_filter]
  · intro p
    unfold PostCRUD.search_posts
    have h1 : (List.insertionSort byCreatedDesc
        (ps.filter (fun x => postMatches (lowerStr q) x))).length ≤ lim := by
      rw [List.length_insertionSort]
      exact le_trans (List.length_filter_le _ _) hp
    rw [List.drop_zero, List.take_of_length_le h1, List.mem_insertionSort,
        List.mem_filter]

/-- Witness for the amended C9: queries whose lowercase form is present
verbatim in the stored text. -/
theorem search_matches_lowercased_query_witness :
    (c9_alice ∈ UserCRUD.search_users "lic" [c9_alice] 0 20 ↔
      c9_alice ∈ [c9_alice] ∧ userMatches (lowerStr "lic") c9_alice = true) ∧
    (c9_post ∈ PostCRUD.search_posts "orld" [c9_post] 0 20 ↔
      c9_post ∈ [c9_post] ∧ postMatches (lowerStr "orld") c9_post = true) :=
  ⟨(search_matches_lowercased_query "lic" [c9_alice] [] 20
      (by decide) (by decide)).1 c9_alice,
   (search_matches_lowercased_query "orld" [] [c9_post] 20
      (by decide) (by decide)).2 c9_post⟩
